import Mathlib

/-!
# AgentBus: shallow embedding of the core data model and operations

This file embeds, in Lean 4, the parts of the AgentBus Rust sources needed to
settle the frozen claims: the payload data model, the write-once address
space, the two log implementations (`InMemoryAgentBusState` and
`WriteOnceAgentBus`), the Decider state machine and its vote trackers, the
Voter driver, and the LLM safety-response parser.

Conventions of the embedding:
- Rust `i64`/`i32` integers become `Int`; `u64`/`usize` addresses become `Nat`,
  with the `as usize` cast modelled explicitly (two's complement wrap).
- `HashMap<K, V>` becomes a total function `K → Option V` (or `K → V` together
  with the map's `or_insert`/`or_default` default), updated pointwise.
- Fallible Rust functions returning `Result`/custom error enums become
  `Except`-valued Lean functions.
- `&mut self` methods become state-passing functions returning the new state.
- Strings handled at byte granularity in Rust (`str::find`, slicing) are
  modelled as `List Char`; all the literal patterns involved are ASCII, for
  which byte offsets and scalar offsets coincide.
-/

/-- Modelled from the spec: the protobuf schema `agent_bus.proto` is not part
of the sources; the spec (§3) gives the closed variant set and says every
payload variant maps 1:1 to a `SelectivePollType` tag.  We assign the tags
distinct integers; only their distinctness is ever used. -/
def SelectivePollType.intention : Int := 0

def SelectivePollType.vote : Int := 1

def SelectivePollType.deciderPolicy : Int := 2

def SelectivePollType.voterPolicy : Int := 3

def SelectivePollType.commit : Int := 4

def SelectivePollType.abort : Int := 5

def SelectivePollType.control : Int := 6

def SelectivePollType.inferenceInput : Int := 7

def SelectivePollType.inferenceOutput : Int := 8

def SelectivePollType.actionOutput : Int := 9

def SelectivePollType.agentInput : Int := 10

def SelectivePollType.agentOutput : Int := 11

/-- Modelled from the spec: `DeciderPolicy: enum{ OffByDefault, OnByDefault,
FirstBooleanWins }` (§3); the proto enum tag values are not in the sources,
we number the variants in listed order.  Only distinctness is used. -/
def DeciderPolicy.offByDefault : Int := 0

def DeciderPolicy.onByDefault : Int := 1

def DeciderPolicy.firstBooleanWins : Int := 2

/-- `intention::Intention` oneof: only `StringIntention(String)` appears. -/
inductive IntentionKind where
  | stringIntention (s : String)
deriving Repr, DecidableEq

/-- proto message `Intention { intention: Option<intention::Intention> }`. -/
structure Intention where
  intention : Option IntentionKind
deriving Repr, DecidableEq

/-- `vote_type::VoteType` oneof: only `BooleanVote(bool)` appears. -/
inductive VoteTypeKind where
  | booleanVote (b : Bool)
deriving Repr, DecidableEq

/-- proto message `VoteType { vote_type: Option<vote_type::VoteType> }`. -/
structure VoteType where
  vote_type : Option VoteTypeKind
deriving Repr, DecidableEq

/-- proto message `ExternalLlmVoteInfo { reason, model }`. -/
structure ExternalLlmVoteInfo where
  reason : String
  model : String
deriving Repr, DecidableEq

/-- `vote_info::VoteInfo` oneof: only `ExternalLlmVoteInfo` appears. -/
inductive VoteInfoKind where
  | externalLlmVoteInfo (info : ExternalLlmVoteInfo)
deriving Repr, DecidableEq

/-- proto message `VoteInfo { vote_info: Option<vote_info::VoteInfo> }`. -/
structure VoteInfo where
  vote_info : Option VoteInfoKind
deriving Repr, DecidableEq

/-- proto message `Vote { abstract_vote, intention_id, info }`. -/
structure Vote where
  abstract_vote : Option VoteType
  intention_id : Int
  info : Option VoteInfo
deriving Repr, DecidableEq

/-- proto message `VoterPolicy { prompt_override: String }`. -/
structure VoterPolicy where
  prompt_override : String
deriving Repr, DecidableEq

/-- proto message `Commit { intention_id, reason }`. -/
structure CommitMsg where
  intention_id : Int
  reason : String
deriving Repr, DecidableEq

/-- proto message `Abort { intention_id, reason }`. -/
structure AbortMsg where
  intention_id : Int
  reason : String
deriving Repr, DecidableEq

/-- proto message `ActionOutput { intention_id, body }` (spec §3). -/
structure ActionOutputMsg where
  intention_id : Int
  body : String
deriving Repr, DecidableEq

/-- The `payload::Payload` oneof: the closed set of payload variants
(spec §3 and the exhaustive matches in `decider.rs` / `voter.rs` /
`helpers.rs`).  Variants whose inner structure the claims never inspect
carry a `String` body. -/
inductive PayloadVariant where
  | intention (i : Intention)
  | vote (v : Vote)
  | deciderPolicy (p : Int)
  | voterPolicy (vp : VoterPolicy)
  | commit (c : CommitMsg)
  | abort (a : AbortMsg)
  | control (c : String)
  | inferenceInput (s : String)
  | inferenceOutput (s : String)
  | actionOutput (a : ActionOutputMsg)
  | agentInput (s : String)
  | agentOutput (s : String)
deriving Repr, DecidableEq

/-- proto message `Payload { payload: Option<payload::Payload> }`. -/
structure Payload where
  payload : Option PayloadVariant
deriving Repr, DecidableEq

/-- proto message `Header { log_position: i64 }`. -/
structure Header where
  log_position : Int
deriving Repr, DecidableEq

/-- proto message `BusEntry { header, payload }`. -/
structure BusEntry where
  header : Option Header
  payload : Option Payload
deriving Repr, DecidableEq

/-- proto message `PayloadTypeFilter { payload_types: Vec<i32> }`. -/
structure PayloadTypeFilter where
  payload_types : List Int
deriving Repr, DecidableEq

/-- proto message `ProposeRequest { agent_bus_id, payload }`. -/
structure ProposeRequest where
  agent_bus_id : String
  payload : Option Payload
deriving Repr, DecidableEq

/-- proto message `ProposeResponse { log_position: i64 }`. -/
structure ProposeResponse where
  log_position : Int
deriving Repr, DecidableEq

/-- proto message `PollRequest`. -/
structure PollRequest where
  agent_bus_id : String
  start_log_position : Int
  max_entries : Int
  filter : Option PayloadTypeFilter
deriving Repr, DecidableEq

/-- proto message `PollResponse { entries, complete }`. -/
structure PollResponse where
  entries : List BusEntry
  complete : Bool
deriving Repr, DecidableEq

/-- `api/src/helpers.rs` `get_payload_type`: the `SelectivePollType` for a
payload, or `none` if the payload is empty. -/
def get_payload_type (payload : Payload) : Option Int :=
  match payload.payload with
  | some (.intention _) => some SelectivePollType.intention
  | some (.vote _) => some SelectivePollType.vote
  | some (.deciderPolicy _) => some SelectivePollType.deciderPolicy
  | some (.voterPolicy _) => some SelectivePollType.voterPolicy
  | some (.commit _) => some SelectivePollType.commit
  | some (.abort _) => some SelectivePollType.abort
  | some (.control _) => some SelectivePollType.control
  | some (.inferenceInput _) => some SelectivePollType.inferenceInput
  | some (.inferenceOutput _) => some SelectivePollType.inferenceOutput
  | some (.actionOutput _) => some SelectivePollType.actionOutput
  | some (.agentInput _) => some SelectivePollType.agentInput
  | some (.agentOutput _) => some SelectivePollType.agentOutput
  | none => none

/-- `api/src/helpers.rs` `payload_matches_filter`. -/
def payload_matches_filter (payload : Payload) (filter : Option (List Int)) : Bool :=
  match filter with
  | none => true
  | some types =>
    match get_payload_type payload with
    | some payload_type => types.contains payload_type
    | none => false

/-- `api/src/validation.rs` `MIN_BUS_ID_LEN`. -/
def MIN_BUS_ID_LEN : Nat := 1

/-- `api/src/validation.rs` `MAX_BUS_ID_LEN`. -/
def MAX_BUS_ID_LEN : Nat := 256

/-- `api/src/validation.rs` `is_valid_bus_id_char`. -/
def is_valid_bus_id_char (c : Char) : Bool :=
  c.isAlpha || c.isDigit || c = '-' || c = '_' || c = '.' || c = '/'

/-- `api/src/validation.rs` `validate_bus_id` (lengths measured in scalar
units; all valid ids are ASCII, where this agrees with Rust byte length). -/
def validate_bus_id (bus_id : String) : Except String Unit :=
  let len := bus_id.length
  if len < MIN_BUS_ID_LEN || len > MAX_BUS_ID_LEN then
    .error "Bus ID length must be between MIN and MAX characters"
  else if !(bus_id.toList.all is_valid_bus_id_char) then
    .error "Bus ID can only contain ASCII alphanumeric characters, hyphens, underscores, dots, and slashes"
  else
    .ok ()

/-- `WriteOnceError` from `agentbus_api` (`api/src/write_once_space.rs`). -/
inductive WriteOnceError where
  | addressAlreadyExists (addr : Nat)
  | backendUnavailable (msg : String)
  | notImplemented
deriving Repr, DecidableEq

/-- `impls/writeonce/src/in_memory_write_once_space_state.rs`
`InMemoryWriteOnceSpaceState`: nested `HashMap<String, HashMap<u64, Bytes>>`,
modelled as a total function from space id to an association list of
`(address, value)` pairs (an absent space and an empty inner map are
indistinguishable to `read`/`write`, matching `entry(..).or_default()`).
Polymorphic in the stored value type `V` (Rust uses `Bytes`). -/
structure InMemoryWriteOnceSpaceState (V : Type) where
  spaces : String → List (Nat × V)

/-- `InMemoryWriteOnceSpaceState::new`. -/
def InMemoryWriteOnceSpaceState.new (V : Type) : InMemoryWriteOnceSpaceState V :=
  ⟨fun _ => []⟩

/-- `InMemoryWriteOnceSpaceState::write`: fails with `AddressAlreadyExists`
iff the address is already bound in the space. -/
def InMemoryWriteOnceSpaceState.write (st : InMemoryWriteOnceSpaceState V)
    (space_id : String) (address : Nat) (value : V) :
    Except WriteOnceError (InMemoryWriteOnceSpaceState V) :=
  let space := st.spaces space_id
  if (space.lookup address).isSome then
    .error (.addressAlreadyExists address)
  else
    .ok ⟨fun s => if s = space_id then (address, value) :: space else st.spaces s⟩

/-- `InMemoryWriteOnceSpaceState::read`. -/
def InMemoryWriteOnceSpaceState.read (st : InMemoryWriteOnceSpaceState V)
    (space_id : String) (address : Nat) : Option V :=
  (st.spaces space_id).lookup address

/-- The `x as usize` cast of an `i64`/`i32` value: two's complement wrap to
64 bits (`usize` on the 64-bit targets the code is built for). -/
def usizeOfInt (x : Int) : Nat := (x % (2 ^ 64 : Int)).toNat

/-- `MAX_POLL_ENTRIES` (the same constant in
`in_memory_agentbus_state.rs` and `write_once_agentbus.rs`). -/
def MAX_POLL_ENTRIES : Nat := 64

/-- `impls/simple/src/in_memory_agentbus_state.rs` `InMemoryAgentBusState`:
`HashMap<String, Vec<BusEntry>>`. -/
structure InMemoryAgentBusState where
  buses : String → Option (List BusEntry)

/-- `InMemoryAgentBusState::new`. -/
def InMemoryAgentBusState.new : InMemoryAgentBusState := ⟨fun _ => none⟩

/-- `InMemoryAgentBusState::propose`. -/
def InMemoryAgentBusState.propose (st : InMemoryAgentBusState)
    (request : ProposeRequest) : Except String (ProposeResponse × InMemoryAgentBusState) :=
  match validate_bus_id request.agent_bus_id with
  | .error e => .error e
  | .ok () =>
    match request.payload with
    | none => .error "Missing or unknown payload in request"
    | some payload =>
      let bus := (st.buses request.agent_bus_id).getD []
      let position : Int := bus.length
      let entry : BusEntry := ⟨some ⟨position⟩, some payload⟩
      .ok (⟨position⟩,
        ⟨fun s => if s = request.agent_bus_id then some (bus ++ [entry]) else st.buses s⟩)

/-- The entry-collection loop inside `fetch_entries`
(`for (i, entry) in slice.iter().enumerate()`, lines 103–127): `i` is the
enumeration index and `cnt` the current `result.len()`. -/
def fetchEntriesLoop (payload_types : Option (List Int)) (max_entries : Nat)
    (start_idx : Nat) : List BusEntry → Nat → Nat → List BusEntry × Bool
  | [], _, _ => ([], true)
  | entry :: rest, i, cnt =>
    match entry.payload with
    | some payload =>
      if !payload_matches_filter payload payload_types then
        fetchEntriesLoop payload_types max_entries start_idx rest (i + 1) cnt
      else if max_entries ≤ cnt then
        ([], false)
      else
        let log_entry : BusEntry := ⟨some ⟨(start_idx + i : Int)⟩, entry.payload⟩
        let rec_result := fetchEntriesLoop payload_types max_entries start_idx rest (i + 1) (cnt + 1)
        (log_entry :: rec_result.1, rec_result.2)
    | none => fetchEntriesLoop payload_types max_entries start_idx rest (i + 1) cnt

/-- `InMemoryAgentBusState::fetch_entries` (lines 74–134). -/
def InMemoryAgentBusState.fetch_entries (st : InMemoryAgentBusState)
    (agent_bus_id : String) (start_position : Int) (max_entries : Nat)
    (payload_types : Option (List Int)) : List BusEntry × Bool :=
  match st.buses agent_bus_id with
  | none => ([], true)
  | some bus =>
    let start_idx := (max start_position 0).toNat
    let slice := if start_idx < bus.length then bus.drop start_idx else []
    match payload_types with
    | some [] => ([], true)
    | _ => fetchEntriesLoop payload_types max_entries start_idx slice 0 0

/-- `InMemoryAgentBusState::poll` (lines 55–68).  The source returns
`Result<PollResponse>`; its only fallible step, `fetch_entries`, always
returns `Ok`, and no validation is performed. -/
def InMemoryAgentBusState.poll (st : InMemoryAgentBusState) (request : PollRequest) :
    Except String PollResponse :=
  let max_entries := min (usizeOfInt request.max_entries) MAX_POLL_ENTRIES
  let payload_types := request.filter.map (·.payload_types)
  let fetched := st.fetch_entries request.agent_bus_id request.start_log_position
    max_entries payload_types
  .ok ⟨fetched.1, fetched.2⟩

/-- `write_once_agentbus.rs` `WriteOnceAgentBusState`: the shared state of a
`WriteOnceAgentBus`, instantiated at the in-memory write-once space.  The
prost payload codec is generated code outside the sources; per the spec
round-trip law (`decode(encode(p)) = p`, §8) it is modelled as the identity
embedding, so the space stores `Payload` values directly and
`deserialize_payload` always succeeds.  `next_positions` is a
`HashMap<String, u64>` read through `or_insert(0)`, modelled as a total
function defaulting to 0. -/
structure WriteOnceAgentBusState where
  space : InMemoryWriteOnceSpaceState Payload
  next_positions : String → Nat

/-- A fresh `WriteOnceAgentBus` over a fresh in-memory space. -/
def WriteOnceAgentBusState.new : WriteOnceAgentBusState :=
  ⟨InMemoryWriteOnceSpaceState.new Payload, fun _ => 0⟩

/-- One write outcome per address, abstracting what
`space.write(&bus_id, position, bytes)` returns at each position for the
fixed bus and payload of one `propose` call: `none` is `Ok(())`, `some e`
the error `e`. -/
def WriteOutcome : Type := Nat → Option WriteOnceError

/-- The retry loop of `WriteOnceAgentBus::propose` (lines 103–150) over a
sequence of write outcomes.  `fuel` bounds the number of iterations modelled;
a result of `none` means the loop is still retrying after `fuel` attempts. -/
def proposeLoop (outcome : WriteOutcome) :
    Nat → Nat → Option (Except WriteOnceError Nat)
  | 0, _ => none
  | fuel + 1, position =>
    match outcome position with
    | none => some (.ok position)
    | some (.addressAlreadyExists _) => proposeLoop outcome fuel (position + 1)
    | some (.backendUnavailable msg) => some (.error (.backendUnavailable msg))
    | some .notImplemented => some (.error .notImplemented)

/-- The `next_positions[bus]` cache after `propose` finishes: `propose` sets
it to `position + 1` on success (lines 109–112) and returns without touching
it on `BackendUnavailable` / `NotImplemented` (lines 135–148). -/
def proposeNextCache (cached : Nat) : Option (Except WriteOnceError Nat) → Nat
  | some (.ok position) => position + 1
  | _ => cached

/-- The tail-discovery scan of `WriteOnceAgentBus::poll` (lines 177–183):
`while space.read(bus, end_position).is_some() { end_position += 1 }` over
the in-memory space's association list for the bus.  Terminates because the
occupied address set is finite: the measure is the largest occupied address
plus one, minus the cursor. -/
def scanEnd (m : List (Nat × V)) (p : Nat) : Nat :=
  if h : (m.lookup p).isSome then scanEnd m (p + 1) else p
termination_by ((m.map Prod.fst).foldr max 0) + 1 - p
decreasing_by
  have key : ∀ (l : List (Nat × V)) (q : Nat), (l.lookup q).isSome = true →
      q ≤ (l.map Prod.fst).foldr max 0 := by
    intro l
    induction l with
    | nil => intro q hq; simp [List.lookup] at hq
    | cons kv t ih =>
      intro q hq
      rw [List.lookup] at hq
      by_cases hq1 : q = kv.1
      · subst hq1
        simp
      · have : (q == kv.1) = false := by simpa using hq1
        rw [this] at hq
        have := ih q hq
        simp only [List.map_cons, List.foldr_cons]
        exact le_trans this (Nat.le_max_right _ _)
  have := key m p h
  omega

/-- The entry-collection loop of `WriteOnceAgentBus::poll` (lines 197–226):
walk `pos` from `start` to `end_position`, reading and deserializing each
cell; `cnt` is `entries.len()`.  In the model every stored value
deserializes (identity codec). -/
def woPollLoop (m : List (Nat × Payload)) (payload_types : Option (List Int))
    (max_entries : Nat) (end_position : Nat) (pos : Nat) (cnt : Nat) :
    List BusEntry × Bool :=
  if pos < end_position then
    match m.lookup pos with
    | some payload =>
      if !payload_matches_filter payload payload_types then
        woPollLoop m payload_types max_entries end_position (pos + 1) cnt
      else if max_entries ≤ cnt then
        ([], false)
      else
        let rec_result := woPollLoop m payload_types max_entries end_position (pos + 1) (cnt + 1)
        (⟨some ⟨(pos : Int)⟩, some payload⟩ :: rec_result.1, rec_result.2)
    | none => woPollLoop m payload_types max_entries end_position (pos + 1) cnt
  else ([], true)
termination_by end_position - pos

/-- `WriteOnceAgentBus::poll` (lines 153–229).  No bus-id validation is
performed; the function always returns `Ok`.  Returns the response together
with the updated shared state (the `next_positions` cache is advanced to the
discovered tail, except on the empty-filter early return). -/
def WriteOnceAgentBusState.poll (st : WriteOnceAgentBusState) (request : PollRequest) :
    Except String (PollResponse × WriteOnceAgentBusState) :=
  let max_entries := min (usizeOfInt request.max_entries) MAX_POLL_ENTRIES
  let start_position := (max request.start_log_position 0).toNat
  let payload_types := request.filter.map (·.payload_types)
  match payload_types with
  | some [] => .ok (⟨[], true⟩, st)
  | _ =>
    let m := st.space.spaces request.agent_bus_id
    let end_position := scanEnd m (st.next_positions request.agent_bus_id)
    let st' : WriteOnceAgentBusState :=
      { st with next_positions :=
          fun b => if b = request.agent_bus_id then end_position else st.next_positions b }
    if end_position = 0 then
      .ok (⟨[], true⟩, st')
    else
      let looped := woPollLoop m payload_types max_entries end_position start_position 0
      .ok (⟨looped.1, looped.2⟩, st')

/-- `core/src/vote_trackers.rs` `OnByDefaultTracker` state. -/
structure OnByDefaultTracker where
  decision : Option Bool
deriving Repr, DecidableEq

/-- `OnByDefaultTracker::new`. -/
def OnByDefaultTracker.new : OnByDefaultTracker := ⟨none⟩

/-- `OnByDefaultTracker::register` (lines 26–30): commit by default. -/
def OnByDefaultTracker.register (_t : OnByDefaultTracker) :
    OnByDefaultTracker × Option (Bool × String) :=
  (⟨some true⟩, some (true, "ON_BY_DEFAULT policy"))

/-- `OnByDefaultTracker::apply_vote` (lines 32–37): the decision is sticky. -/
def OnByDefaultTracker.apply_vote (t : OnByDefaultTracker) (_vote : Vote) :
    OnByDefaultTracker × Option (Bool × String) :=
  (t, t.decision.map fun d => (d, "ON_BY_DEFAULT policy"))

/-- `core/src/vote_trackers.rs` `FirstVoterWinsTracker` state. -/
structure FirstVoterWinsTracker where
  decision : Option Bool
  reason : Option String
deriving Repr, DecidableEq

/-- `FirstVoterWinsTracker::new`. -/
def FirstVoterWinsTracker.new : FirstVoterWinsTracker := ⟨none, none⟩

/-- `FirstVoterWinsTracker::register` (lines 57–60): no immediate decision,
wait for votes.  The state is untouched. -/
def FirstVoterWinsTracker.register (t : FirstVoterWinsTracker) :
    FirstVoterWinsTracker × Option (Bool × String) := (t, none)

/-- `FirstVoterWinsTracker::apply_vote` (lines 62–96): a recorded decision is
sticky; otherwise the first boolean vote is recorded (together with a reason
formatted from `ExternalLlmVoteInfo`, when present) and returned; a
non-boolean vote keeps waiting. -/
def FirstVoterWinsTracker.apply_vote (t : FirstVoterWinsTracker) (vote : Vote) :
    FirstVoterWinsTracker × Option (Bool × String) :=
  match t.decision with
  | some d => (t, some (d, t.reason.getD "No reason provided"))
  | none =>
    match vote.abstract_vote with
    | some vote_type =>
      match vote_type.vote_type with
      | some (.booleanVote b) =>
        let reason' : Option String :=
          match vote.info with
          | some vote_info =>
            match vote_info.vote_info with
            | some (.externalLlmVoteInfo llm_info) =>
              some ("[" ++ llm_info.model ++ "] " ++ llm_info.reason)
            | none => t.reason
          | none => t.reason
        (⟨some b, reason'⟩, some (b, reason'.getD "No reason provided"))
      | none => (t, none)
    | none => (t, none)

/-- `core/src/vote_trackers.rs` `OffByDefaultTracker` state. -/
structure OffByDefaultTracker where
  decision : Option Bool
deriving Repr, DecidableEq

/-- `OffByDefaultTracker::new`. -/
def OffByDefaultTracker.new : OffByDefaultTracker := ⟨none⟩

/-- `OffByDefaultTracker::register` (lines 113–117): abort by default. -/
def OffByDefaultTracker.register (_t : OffByDefaultTracker) :
    OffByDefaultTracker × Option (Bool × String) :=
  (⟨some false⟩, some (false, "OFF_BY_DEFAULT policy"))

/-- `OffByDefaultTracker::apply_vote` (lines 119–123): the decision is
sticky. -/
def OffByDefaultTracker.apply_vote (t : OffByDefaultTracker) (_vote : Vote) :
    OffByDefaultTracker × Option (Bool × String) :=
  (t, t.decision.map fun d => (d, "OFF_BY_DEFAULT policy"))

/-- A `Box<dyn VoteRecord>` holding one of the three concrete trackers. -/
inductive VoteTrackerBox where
  | onByDefault (t : OnByDefaultTracker)
  | firstVoterWins (t : FirstVoterWinsTracker)
  | offByDefault (t : OffByDefaultTracker)
deriving Repr, DecidableEq

/-- Dynamic dispatch of `VoteRecord::register` on a boxed tracker. -/
def VoteTrackerBox.register : VoteTrackerBox → VoteTrackerBox × Option (Bool × String)
  | .onByDefault t => let r := t.register; (.onByDefault r.1, r.2)
  | .firstVoterWins t => let r := t.register; (.firstVoterWins r.1, r.2)
  | .offByDefault t => let r := t.register; (.offByDefault r.1, r.2)

/-- Dynamic dispatch of `VoteRecord::apply_vote` on a boxed tracker. -/
def VoteTrackerBox.apply_vote (box : VoteTrackerBox) (vote : Vote) :
    VoteTrackerBox × Option (Bool × String) :=
  match box with
  | .onByDefault t => let r := t.apply_vote vote; (.onByDefault r.1, r.2)
  | .firstVoterWins t => let r := t.apply_vote vote; (.firstVoterWins r.1, r.2)
  | .offByDefault t => let r := t.apply_vote vote; (.offByDefault r.1, r.2)

/-- `vote_trackers.rs` `create_vote_tracker_for_decider_policy`
(lines 127–134), with the guards of the match arms in source order and the
default fallback. -/
def create_vote_tracker_for_decider_policy (decider_policy : Int) : VoteTrackerBox :=
  if decider_policy = DeciderPolicy.onByDefault then
    .onByDefault OnByDefaultTracker.new
  else if decider_policy = DeciderPolicy.firstBooleanWins then
    .firstVoterWins FirstVoterWinsTracker.new
  else if decider_policy = DeciderPolicy.offByDefault then
    .offByDefault OffByDefaultTracker.new
  else
    .firstVoterWins FirstVoterWinsTracker.new

/-- `decider.rs` `DeciderError`. -/
inductive DeciderError where
  | failedAgentBusCall (msg : String)
  | unknownPayloadType (position : Int)
deriving Repr, DecidableEq

/-- The `VoteRecord` trait (`decider.rs` lines 31–43) as a pair of
state-passing operations over an abstract tracker state type `R` (the
source's `Box<dyn VoteRecord>` with `&mut self` methods). -/
structure TrackerOps (R : Type) where
  register : R → R × Option (Bool × String)
  applyVote : R → Vote → R × Option (Bool × String)

/-- The `TrackerOps` instance of the boxed concrete trackers. -/
def VoteTrackerBox.ops : TrackerOps VoteTrackerBox :=
  ⟨VoteTrackerBox.register, VoteTrackerBox.apply_vote⟩

/-- `decider.rs` `IntentionState` (lines 49–52). -/
structure IntentionState (R : Type) where
  vote_tracker : R
  decision_made : Bool

/-- `decider.rs` `Decider` mutable state (lines 55–63): positions are `i64`,
`intention_states` a `HashMap<i64, IntentionState>`. -/
structure DeciderState (R : Type) where
  next_log_position : Int
  current_decider_policy : Int
  intention_states : Int → Option (IntentionState R)

/-- `Decider::new` (lines 67–83). -/
def DeciderState.new (R : Type) (initial_decider_policy : Int) : DeciderState R :=
  ⟨0, initial_decider_policy, fun _ => none⟩

/-- A Commit (`commit = true`) or Abort (`commit = false`) appended by
`Decider::propose_decision` (lines 256–294). -/
structure Proposal where
  intention_id : Int
  commit : Bool
  reason : String
deriving Repr, DecidableEq

/-- `Decider::process_intention` (lines 201–221): create a fresh tracker for
the current policy, `register` it, store the intention state at the entry's
position, and propose the registration decision when there is one.  The
proposal is returned instead of being sent to the bus (the model collects
`propose_decision` effects; a failing propose only ends the run earlier and
cannot add proposals). -/
def Decider.process_intention (ops : TrackerOps R) (factory : Int → R)
    (st : DeciderState R) (log_position : Int) : DeciderState R × Option Proposal :=
  let reg := ops.register (factory st.current_decider_policy)
  let decision_made := reg.2.isSome
  let st' : DeciderState R :=
    { st with intention_states :=
        fun k => if k = log_position then some ⟨reg.1, decision_made⟩
                 else st.intention_states k }
  match reg.2 with
  | some cr => (st', some ⟨log_position, cr.1, cr.2⟩)
  | none => (st', none)

/-- `Decider::process_vote` (lines 224–245): look up the vote's intention;
skip if absent or already decided; otherwise apply the vote to the tracker
and, on a decision, mark it made and propose. -/
def Decider.process_vote (ops : TrackerOps R) (st : DeciderState R) (vote : Vote) :
    DeciderState R × Option Proposal :=
  let intention_id := vote.intention_id
  match st.intention_states intention_id with
  | some state =>
    if state.decision_made then (st, none)
    else
      let applied := ops.applyVote state.vote_tracker vote
      match applied.2 with
      | some cr =>
        ({ st with intention_states :=
             fun k => if k = intention_id then some ⟨applied.1, true⟩
                      else st.intention_states k },
         some ⟨intention_id, cr.1, cr.2⟩)
      | none =>
        ({ st with intention_states :=
             fun k => if k = intention_id then some ⟨applied.1, false⟩
                      else st.intention_states k },
         none)
  | none => (st, none)

/-- `Decider::process_entry` (lines 157–198): dispatch on the payload
variant, then advance `next_log_position` to the entry's position plus one
(skipped when an error is returned). -/
def Decider.process_entry (ops : TrackerOps R) (factory : Int → R)
    (st : DeciderState R) (entry : BusEntry) :
    Except DeciderError (DeciderState R × Option Proposal) :=
  let log_position := (entry.header.map Header.log_position).getD 0
  let stepped : Except DeciderError (DeciderState R × Option Proposal) :=
    match entry.payload with
    | some payload =>
      match payload.payload with
      | some (.intention _) => .ok (Decider.process_intention ops factory st log_position)
      | some (.vote vote) => .ok (Decider.process_vote ops st vote)
      | some (.deciderPolicy decider_policy) =>
        .ok ({ st with current_decider_policy := decider_policy }, none)
      | some (.voterPolicy _) => .ok (st, none)
      | some (.commit _) => .ok (st, none)
      | some (.abort _) => .ok (st, none)
      | some (.control _) => .error (.unknownPayloadType log_position)
      | some (.inferenceInput _) => .ok (st, none)
      | some (.inferenceOutput _) => .ok (st, none)
      | some (.actionOutput _) => .ok (st, none)
      | some (.agentInput _) => .ok (st, none)
      | some (.agentOutput _) => .ok (st, none)
      | none => .error (.unknownPayloadType log_position)
    | none => .ok (st, none)
  match stepped with
  | .ok stprop => .ok ({ stprop.1 with next_log_position := log_position + 1 }, stprop.2)
  | .error e => .error e

/-- The entry loop of `Decider::poll_and_decide` (lines 112–116) over a
sequence of polled entries: process each in order, stopping at the first
error; the proposals appended before the error remain on the bus. -/
def Decider.process_entries (ops : TrackerOps R) (factory : Int → R)
    (st : DeciderState R) :
    List BusEntry → List Proposal × Except DeciderError (DeciderState R)
  | [] => ([], .ok st)
  | entry :: rest =>
    match Decider.process_entry ops factory st entry with
    | .ok stprop =>
      let tail := Decider.process_entries ops factory stprop.1 rest
      (stprop.2.toList ++ tail.1, tail.2)
    | .error e => ([], .error e)

/-- `voter.rs` `VoterError`. -/
inductive VoterError where
  | failedAgentBusCall (msg : String)
  | unknownPayloadType (position : Int)
  | llmCallFailed (msg : String)
deriving Repr, DecidableEq

/-- `voter.rs` `Voter` mutable state (lines 187–195, the fields the claims
concern). -/
structure VoterState where
  next_log_position : Int
  prompt_override : Option String
deriving Repr, DecidableEq

/-- `Voter::new` (lines 199–209): `next_log_position = 0`,
`prompt_override = None`. -/
def VoterState.new : VoterState := ⟨0, none⟩

/-- `Voter::process_voter_policy` (lines 445–453): apply the override only
when the entry's `prompt_override` string is non-empty. -/
def Voter.process_voter_policy (st : VoterState) (voter_policy : VoterPolicy) : VoterState :=
  if !voter_policy.prompt_override.isEmpty then
    { st with prompt_override := some voter_policy.prompt_override }
  else
    st

/-- `Voter::process_entry` (lines 356–387): Intention and VoterPolicy are
processed; every other variant (and a missing payload) yields
`UnknownPayloadType`; `next_log_position` advances past the entry unless an
error is returned.  The intention branch's awaited effects (LLM vote and
`agent_bus.propose`) are abstracted by `propose_result`. -/
def Voter.process_entry (propose_result : Except String Unit)
    (st : VoterState) (entry : BusEntry) : Except VoterError VoterState :=
  let log_position := (entry.header.map Header.log_position).getD 0
  let stepped : Except VoterError VoterState :=
    match entry.payload with
    | some payload =>
      match payload.payload with
      | some (.intention _) =>
        match propose_result with
        | .ok () => .ok st
        | .error e => .error (.failedAgentBusCall e)
      | some (.voterPolicy voter_policy) => .ok (Voter.process_voter_policy st voter_policy)
      | some (.vote _) => .error (.unknownPayloadType log_position)
      | some (.deciderPolicy _) => .error (.unknownPayloadType log_position)
      | some (.commit _) => .error (.unknownPayloadType log_position)
      | some (.abort _) => .error (.unknownPayloadType log_position)
      | some (.control _) => .error (.unknownPayloadType log_position)
      | some (.inferenceInput _) => .error (.unknownPayloadType log_position)
      | some (.inferenceOutput _) => .error (.unknownPayloadType log_position)
      | some (.actionOutput _) => .error (.unknownPayloadType log_position)
      | some (.agentInput _) => .error (.unknownPayloadType log_position)
      | some (.agentOutput _) => .error (.unknownPayloadType log_position)
      | none => .error (.unknownPayloadType log_position)
    | none => .ok st
  match stepped with
  | .ok st' => .ok { st' with next_log_position := log_position + 1 }
  | .error e => .error e

/-- The sleep performed by a loop iteration before the next poll. -/
inductive SleepAction where
  | noSleep
  | sleepPollInterval
  | sleepFivePollIntervals
deriving Repr, DecidableEq

/-- One iteration of `Voter::run`'s loop body (lines 326–352) applied to the
result of `poll_and_vote`: the state to continue with and the sleep taken.
Every arm of the source match continues the loop; the `Except.error` case of
the result type (a fatal `return Err(..)`, as in `Decider::run`) is never
produced. -/
def Voter.run_step (st : VoterState) (poll_result : Except VoterError Nat) :
    Except VoterError (VoterState × SleepAction) :=
  match poll_result with
  | .ok entries_processed =>
    if entries_processed = 0 then .ok (st, .sleepPollInterval)
    else .ok (st, .noSleep)
  | .error (.failedAgentBusCall _) => .ok (st, .sleepFivePollIntervals)
  | .error (.unknownPayloadType position) =>
    .ok ({ st with next_log_position := position + 1 }, .noSleep)
  | .error (.llmCallFailed _) => .ok (st, .sleepFivePollIntervals)

/-- Rust `str::find(pattern)`: the least index at which `pattern` occurs as
a contiguous substring (byte offsets in Rust, scalar offsets here; the
patterns used below are ASCII, for which the two coincide). -/
def strFind (l pat : List Char) : Option Nat :=
  match l with
  | [] => if pat.isEmpty then some 0 else none
  | c :: t =>
    if pat.isPrefixOf (c :: t) then some 0
    else (strFind t pat).map (· + 1)

/-- Rust `str::trim`: strip leading and trailing whitespace. -/
def trimChars (l : List Char) : List Char :=
  ((l.dropWhile Char.isWhitespace).reverse.dropWhile Char.isWhitespace).reverse

/-- Rust `str::eq_ignore_ascii_case` (Lean's `Char.toLower` lowercases
exactly the ASCII uppercase range, like Rust's `to_ascii_lowercase`). -/
def eqIgnoreAsciiCase (a b : List Char) : Bool :=
  a.map Char.toLower == b.map Char.toLower

/-- `voter.rs` `parse_safety_response` (lines 457–501): extract the `<safe>`
decision (fail-closed), the `<reason>` text and the `<concerns>` text, each
from the first occurrence of its opening tag. -/
def parse_safety_response (response : List Char) : Bool × List Char :=
  let is_safe :=
    match strFind response "<safe>".toList with
    | some start =>
      match strFind (response.drop start) "</safe>".toList with
      | some endIdx =>
        let safe_str := (response.drop (start + 6)).take (endIdx - 6)
        eqIgnoreAsciiCase (trimChars safe_str) "true".toList
      | none => false
    | none => false
  let reason :=
    match strFind response "<reason>".toList with
    | some start =>
      match strFind (response.drop start) "</reason>".toList with
      | some endIdx => trimChars ((response.drop (start + 8)).take (endIdx - 8))
      | none => "Could not parse reason".toList
    | none => "No reason provided".toList
  let concerns :=
    match strFind response "<concerns>".toList with
    | some start =>
      match strFind (response.drop start) "</concerns>".toList with
      | some endIdx => trimChars ((response.drop (start + 10)).take (endIdx - 10))
      | none => []
    | none => []
  let full_reason :=
    if concerns.isEmpty || eqIgnoreAsciiCase concerns "none".toList then reason
    else reason ++ ". Concerns: ".toList ++ concerns
  (is_safe, full_reason)

/-- `Except.isOk` as a plain boolean discriminator. -/
def exceptIsOk : Except ε α → Bool
  | .ok _ => true
  | .error _ => false

/-- The boolean value carried by a vote, when it is a boolean vote
(`Some(BooleanVote(b))` nested under `abstract_vote`). -/
def voteBooleanValue (v : Vote) : Option Bool :=
  match v.abstract_vote with
  | some vote_type =>
    match vote_type.vote_type with
    | some (.booleanVote b) => some b
    | none => none
  | none => none

/-- The log position the Decider/Voter attribute to an entry:
`entry.header.as_ref().map(|h| h.log_position).unwrap_or(0)`. -/
def entryPos (entry : BusEntry) : Int :=
  (entry.header.map Header.log_position).getD 0

/-- Whether an entry carries an `Intention` payload. -/
def entryIsIntention (entry : BusEntry) : Bool :=
  match entry.payload with
  | some payload =>
    match payload.payload with
    | some (.intention _) => true
    | _ => false
  | none => false

/-- Whether the Decider has a recorded, already-decided state for intention
`k` (specification-side view of `intention_states`). -/
def decidedAt (st : DeciderState R) (k : Int) : Bool :=
  ((st.intention_states k).map IntentionState.decision_made).getD false

/-- Specification-side predicate for the amended claim C1: some entry of the
list has a payload matching the filter. -/
def anyMatching (payload_types : Option (List Int)) (l : List BusEntry) : Bool :=
  l.any fun entry =>
    match entry.payload with
    | some payload => payload_matches_filter payload payload_types
    | none => false

/-- Specification-side predicate for the amended claim C1 (write-once bus):
some occupied cell at a position in `[pos, end_position)` matches the
filter. -/
def anyMatchingInRange (m : List (Nat × Payload)) (payload_types : Option (List Int))
    (end_position pos : Nat) : Bool :=
  if pos < end_position then
    (match m.lookup pos with
     | some payload => payload_matches_filter payload payload_types
     | none => false) || anyMatchingInRange m payload_types end_position (pos + 1)
  else false
termination_by end_position - pos

/-- `pat` occurs in `l` at index `i`. -/
def OccursAt (l pat : List Char) (i : Nat) : Prop := pat <+: l.drop i

/-- `i` is the least index at which `pat` occurs in `l`. -/
def FirstOccursAt (l pat : List Char) (i : Nat) : Prop :=
  OccursAt l pat i ∧ ∀ j, j < i → ¬ OccursAt l pat j

/-- Specification-side predicate for claim C7, following the spec's words: a
well-formed `<safe>…</safe>` tag whose trimmed content equals "true" up to
ASCII case and surrounding whitespace is present somewhere in the
response. -/
def hasWellFormedTrueSafeTag (response : List Char) : Bool :=
  (List.range (response.length + 1)).any fun i =>
    ("<safe>".toList.isPrefixOf (response.drop i)) &&
    (List.range (response.length + 1)).any fun j =>
      ("</safe>".toList.isPrefixOf (response.drop (i + 6 + j))) &&
      eqIgnoreAsciiCase (trimChars ((response.drop (i + 6)).take j)) "true".toList

/-- A sample payload: `Intention(StringIntention("a"))`. -/
def sampleIntentionPayload : Payload :=
  ⟨some (.intention ⟨some (.stringIntention "a")⟩)⟩

/-- Concrete in-memory bus state for the C1 counterexample: one bus `"b"`
holding a single intention entry at position 0. -/
def c1InMemoryState : InMemoryAgentBusState :=
  ⟨fun s => if s = "b" then some [⟨some ⟨0⟩, some sampleIntentionPayload⟩] else none⟩

/-- Concrete write-once bus state for the C1 counterexample: the space for
bus `"b"` holds one intention payload at address 0; the cached next
position is 0. -/
def c1WriteOnceState : WriteOnceAgentBusState :=
  ⟨⟨fun s => if s = "b" then [(0, sampleIntentionPayload)] else []⟩, fun _ => 0⟩

/-- The C1 counterexample request: `max_entries = 0`, from the start, no
filter. -/
def c1Request : PollRequest := ⟨"b", 0, 0, none⟩

/-- Write-outcome sequence for the C3 witness: conflicts at addresses 0 and
1, success from address 2 on. -/
def c3Outcome : WriteOutcome :=
  fun r => if r < 2 then some (.addressAlreadyExists r) else none

/-- The space state after the C4 witness's first successful write. -/
def c4SpaceAfterWrite : InMemoryWriteOnceSpaceState Nat :=
  ⟨fun s => if s = "sp" then [(0, 7)] else []⟩

/-- A vote carrying `BooleanVote(false)` and no info, used by witnesses. -/
def sampleBooleanVoteFalse : Vote :=
  ⟨some ⟨some (.booleanVote false)⟩, 0, none⟩

/-- A vote carrying `BooleanVote(true)` for intention 0, used by the C2
witness. -/
def sampleBooleanVoteTrue : Vote :=
  ⟨some ⟨some (.booleanVote true)⟩, 0, none⟩

/-- Entry list for the C2 witness: an intention at position 0 followed by a
boolean vote for it at position 1. -/
def c2Entries : List BusEntry :=
  [⟨some ⟨0⟩, some sampleIntentionPayload⟩,
   ⟨some ⟨1⟩, some ⟨some (.vote sampleBooleanVoteTrue)⟩⟩]

/-- The C7 counterexample response: the first `<safe>` tag says false, a
later well-formed `<safe>` tag says true. -/
def c7Response : List Char := "<safe>false</safe><safe>true</safe>".toList

/-- C4: after `write(s, a, v)` succeeds on the in-memory write-once space, a
second `write(s, a, v')` returns `AddressAlreadyExists(a)` and the stored
value is unchanged: `read(s, a)` still returns `Some(v)`.  In particular two
successful writes at the same `(s, a)` never occur. -/
theorem C4_write_once_single_assignment {V : Type}
    (st st' : InMemoryWriteOnceSpaceState V) (s : String) (a : Nat) (v v' : V)
    (h : st.write s a v = .ok st') :
    st'.write s a v' = .error (.addressAlreadyExists a) ∧ st'.read s a = some v := by
  rw [InMemoryWriteOnceSpaceState.write] at h
  by_cases hc : ((st.spaces s).lookup a).isSome
  · simp [hc] at h
  · simp only [hc, Bool.false_eq_true, if_neg, ite_false, Except.ok.injEq] at h
    subst h
    constructor
    · rw [InMemoryWriteOnceSpaceState.write]
      simp [List.lookup]
    · rw [InMemoryWriteOnceSpaceState.read]
      simp [List.lookup]

/-- Witness for C4 at a concrete input: writing value 7 at `("sp", 0)` in a
fresh space succeeds, after which writing 9 there is rejected and the read
still returns 7. -/
theorem C4_witness :
    c4SpaceAfterWrite.write "sp" 0 9 = .error (.addressAlreadyExists 0)
    ∧ c4SpaceAfterWrite.read "sp" 0 = some 7 :=
  C4_write_once_single_assignment (InMemoryWriteOnceSpaceState.new Nat)
    c4SpaceAfterWrite "sp" 0 7 9 rfl

/-- C5: for the FirstBooleanWins tracker, `register` returns `None` and
leaves the state untouched; on an undecided tracker a non-boolean vote keeps
waiting; the first boolean vote `b` records the decision and returns
`Some((b, reason))`; and once a decision `b` is recorded, every subsequent
`apply_vote` — with any vote — returns `Some((b, reason))` with the recorded
decision and leaves the state unchanged. -/
theorem C5_first_boolean_vote_wins :
    (∀ t : FirstVoterWinsTracker, t.register = (t, none))
    ∧ (∀ (t : FirstVoterWinsTracker) (v : Vote), t.decision = none →
        voteBooleanValue v = none → t.apply_vote v = (t, none))
    ∧ (∀ (t : FirstVoterWinsTracker) (v : Vote) (b : Bool), t.decision = none →
        voteBooleanValue v = some b →
        (t.apply_vote v).1.decision = some b
        ∧ (t.apply_vote v).2
            = some (b, ((t.apply_vote v).1.reason).getD "No reason provided"))
    ∧ (∀ (t : FirstVoterWinsTracker) (v : Vote) (b : Bool), t.decision = some b →
        t.apply_vote v = (t, some (b, t.reason.getD "No reason provided"))) := by
  refine ⟨fun t => rfl, ?_, ?_, ?_⟩
  · intro t v hdec hb
    rcases t with ⟨d, r⟩
    cases d with
    | none =>
      rcases v with ⟨av, id, info⟩
      rw [FirstVoterWinsTracker.apply_vote]
      rw [voteBooleanValue] at hb
      cases av with
      | none => rfl
      | some vt =>
        rcases vt with ⟨vtk⟩
        cases vtk with
        | none => rfl
        | some k => cases k with
          | booleanVote b => simp at hb
    | some d0 => simp at hdec
  · intro t v b hdec hb
    rcases t with ⟨d, r⟩
    cases d with
    | none =>
      rcases v with ⟨av, id, info⟩
      rw [voteBooleanValue] at hb
      cases av with
      | none => simp at hb
      | some vt =>
        rcases vt with ⟨vtk⟩
        cases vtk with
        | none => simp at hb
        | some k =>
          cases k with
          | booleanVote b' =>
            simp only [Option.some.injEq] at hb
            subst hb
            rw [FirstVoterWinsTracker.apply_vote]
            cases info with
            | none => simp
            | some vi =>
              rcases vi with ⟨vik⟩
              cases vik with
              | none => simp
              | some k' => cases k' with
                | externalLlmVoteInfo llm_info => simp
    | some d0 => simp at hdec
  · intro t v b hdec
    rcases t with ⟨d, r⟩
    cases d with
    | none => simp at hdec
    | some d0 =>
      simp only [Option.some.injEq] at hdec
      subst hdec
      rw [FirstVoterWinsTracker.apply_vote]

/-- Witness for C5 at concrete inputs: on a fresh tracker the first boolean
vote `false` decides `false`; on a tracker already decided `true` with
reason "r", a later boolean `false` vote returns the recorded `true`. -/
theorem C5_witness :
    ((FirstVoterWinsTracker.new.apply_vote sampleBooleanVoteFalse).1.decision = some false
      ∧ (FirstVoterWinsTracker.new.apply_vote sampleBooleanVoteFalse).2
          = some (false, ((FirstVoterWinsTracker.new.apply_vote sampleBooleanVoteFalse).1.reason).getD
              "No reason provided"))
    ∧ (FirstVoterWinsTracker.apply_vote ⟨some true, some "r"⟩ sampleBooleanVoteFalse
        = (⟨some true, some "r"⟩, some (true, "r"))) := by
  constructor
  · exact C5_first_boolean_vote_wins.2.2.1 FirstVoterWinsTracker.new
      sampleBooleanVoteFalse false rfl rfl
  · exact C5_first_boolean_vote_wins.2.2.2 ⟨some true, some "r"⟩
      sampleBooleanVoteFalse true rfl

/-- C8: the Voter's run loop is never ended by `UnknownPayloadType`: one
loop iteration applied to `Err(UnknownPayloadType(p))` continues with
`next_log_position = p + 1` and no sleep; every poll result leads to a
continuation (the loop never returns an error, unlike the Decider's); and
`process_entry` yields `UnknownPayloadType` at the entry's position for an
entry that is neither Intention nor VoterPolicy (here: a Vote) or whose
payload is empty. -/
theorem C8_voter_skips_unknown_payload :
    (∀ (st : VoterState) (position : Int),
        Voter.run_step st (.error (.unknownPayloadType position))
          = .ok (⟨position + 1, st.prompt_override⟩, .noSleep))
    ∧ (∀ (st : VoterState) (r : Except VoterError Nat),
        exceptIsOk (Voter.run_step st r) = true)
    ∧ (∀ (propose_result : Except String Unit) (st : VoterState)
          (hdr : Option Header) (v : Vote),
        Voter.process_entry propose_result st ⟨hdr, some ⟨some (.vote v)⟩⟩
          = .error (.unknownPayloadType ((hdr.map Header.log_position).getD 0)))
    ∧ (∀ (propose_result : Except String Unit) (st : VoterState)
          (hdr : Option Header),
        Voter.process_entry propose_result st ⟨hdr, some ⟨none⟩⟩
          = .error (.unknownPayloadType ((hdr.map Header.log_position).getD 0))) := by
  refine ⟨fun st position => rfl, ?_, fun pr st hdr v => rfl, fun pr st hdr => rfl⟩
  intro st r
  rcases r with e | n
  · cases e <;> rfl
  · simp only [Voter.run_step]
    split <;> rfl

/-- C9 counterexample: processing `VoterPolicy { prompt_override: "" }` on a
fresh Voter leaves the stored override at `None`, not `Some("")`. -/
theorem C9_counterexample_empty_override :
    (Voter.process_voter_policy VoterState.new ⟨""⟩).prompt_override = none
    ∧ (Voter.process_voter_policy VoterState.new ⟨""⟩).prompt_override ≠ some "" := by
  have h1 : (Voter.process_voter_policy VoterState.new ⟨""⟩).prompt_override = none := rfl
  exact ⟨h1, by rw [h1]; simp⟩

/-- C9 (amended): processing `VoterPolicy { prompt_override: s }` stores
`Some(s)` for every non-empty `s`; an empty `s` leaves the Voter state
unchanged. -/
theorem C9_voter_policy_override_amended (st : VoterState) (s : String) :
    (s.isEmpty = false → (Voter.process_voter_policy st ⟨s⟩).prompt_override = some s)
    ∧ (s.isEmpty = true → Voter.process_voter_policy st ⟨s⟩ = st) := by
  constructor
  · intro h
    simp [Voter.process_voter_policy, h]
  · intro h
    simp [Voter.process_voter_policy, h]

/-- Witness for C9 (amended) at concrete inputs: a non-empty override "x" is
stored; the empty override is ignored. -/
theorem C9_witness :
    (Voter.process_voter_policy VoterState.new ⟨"x"⟩).prompt_override = some "x"
    ∧ Voter.process_voter_policy VoterState.new ⟨""⟩ = VoterState.new :=
  ⟨(C9_voter_policy_override_amended VoterState.new "x").1 rfl,
   (C9_voter_policy_override_amended VoterState.new "").2 rfl⟩

/-- C10: for every policy tag distinct from the three known `DeciderPolicy`
values, the factory returns a fresh FirstVoterWins tracker — whose
`register` returns `None` and whose first boolean vote decides — rather
than rejecting the unknown policy. -/
theorem C10_factory_fallback (decider_policy : Int)
    (h1 : decider_policy ≠ DeciderPolicy.onByDefault)
    (h2 : decider_policy ≠ DeciderPolicy.offByDefault)
    (h3 : decider_policy ≠ DeciderPolicy.firstBooleanWins) :
    create_vote_tracker_for_decider_policy decider_policy
      = .firstVoterWins FirstVoterWinsTracker.new
    ∧ (create_vote_tracker_for_decider_policy decider_policy).register
        = (create_vote_tracker_for_decider_policy decider_policy, none)
    ∧ (∀ (v : Vote) (b : Bool), voteBooleanValue v = some b →
        (((create_vote_tracker_for_decider_policy decider_policy).apply_vote v).2).map Prod.fst
          = some b) := by
  have hfall : create_vote_tracker_for_decider_policy decider_policy
      = .firstVoterWins FirstVoterWinsTracker.new := by
    rw [create_vote_tracker_for_decider_policy, if_neg h1, if_neg h3, if_neg h2]
  refine ⟨hfall, by rw [hfall]; rfl, ?_⟩
  intro v b hb
  rw [hfall]
  have h5 := C5_first_boolean_vote_wins.2.2.1 FirstVoterWinsTracker.new v b rfl hb
  rw [VoteTrackerBox.apply_vote]
  simp only [FirstVoterWinsTracker.new] at h5 ⊢
  rw [h5.2]
  rfl

/-- C6 counterexample: the empty bus id is invalid (`validate_bus_id`
rejects it), yet `poll` on it returns `Ok` — an empty, complete response —
for both the in-memory log and the write-once bus; no error is produced. -/
theorem C6_counterexample_poll_invalid_id :
    validate_bus_id "" = .error "Bus ID length must be between MIN and MAX characters"
    ∧ InMemoryAgentBusState.poll InMemoryAgentBusState.new ⟨"", 0, 10, none⟩
        = .ok ⟨[], true⟩
    ∧ (WriteOnceAgentBusState.poll WriteOnceAgentBusState.new ⟨"", 0, 10, none⟩).map Prod.fst
        = .ok ⟨[], true⟩ := by
  refine ⟨rfl, rfl, ?_⟩
  rw [WriteOnceAgentBusState.poll]
  split
  · rfl
  · have h : scanEnd (WriteOnceAgentBusState.new.space.spaces "")
        (WriteOnceAgentBusState.new.next_positions "") = 0 := by
      show scanEnd ([] : List (Nat × Payload)) 0 = 0
      rw [scanEnd]
      simp [List.lookup]
    simp only [h, if_pos]
    rfl

/-- C6 (amended): neither `poll` implementation validates the bus id —
`poll` always returns `Ok`, for every request and state; only `propose`
treats validation as fatal (shown here for the in-memory log, whose
`propose` returns the validation error unchanged). -/
theorem C6_poll_never_validates_amended (st : InMemoryAgentBusState)
    (wst : WriteOnceAgentBusState) (request : PollRequest) :
    exceptIsOk (InMemoryAgentBusState.poll st request) = true
    ∧ exceptIsOk (WriteOnceAgentBusState.poll wst request) = true
    ∧ (∀ (preq : ProposeRequest) (e : String),
        validate_bus_id preq.agent_bus_id = .error e →
        InMemoryAgentBusState.propose st preq = .error e) := by
  refine ⟨rfl, ?_, ?_⟩
  · rw [WriteOnceAgentBusState.poll]
    split
    · rfl
    · dsimp only
      split <;> rfl
  · intro preq e he
    rw [InMemoryAgentBusState.propose, he]

/-- Witness for C6 (amended) at a concrete input: polls on the invalid empty
bus id succeed, and `propose` on it fails with the validation error. -/
theorem C6_witness :
    exceptIsOk (InMemoryAgentBusState.poll InMemoryAgentBusState.new ⟨"", 2, 5, none⟩) = true
    ∧ exceptIsOk (WriteOnceAgentBusState.poll WriteOnceAgentBusState.new ⟨"", 2, 5, none⟩) = true
    ∧ InMemoryAgentBusState.propose InMemoryAgentBusState.new ⟨"", some sampleIntentionPayload⟩
        = .error "Bus ID length must be between MIN and MAX characters" := by
  have h := C6_poll_never_validates_amended InMemoryAgentBusState.new
    WriteOnceAgentBusState.new ⟨"", 2, 5, none⟩
  exact ⟨h.1, h.2.1, h.2.2 ⟨"", some sampleIntentionPayload⟩ _ rfl⟩

/-- C3 helper: with `AddressAlreadyExists` conflicts on every address in
`[p, p + n)`, the retry loop burns `n` iterations advancing the cursor to
`p + n`. -/
theorem proposeLoop_skips_conflicts (outcome : WriteOutcome) :
    ∀ (n p : Nat),
    (∀ r, p ≤ r → r < p + n → ∃ a, outcome r = some (.addressAlreadyExists a)) →
    proposeLoop outcome (n + 1) p = proposeLoop outcome 1 (p + n) := by
  intro n
  induction n with
  | zero => intro p _; rfl
  | succ n ih =>
    intro p hconf
    obtain ⟨a, ha⟩ := hconf p le_rfl (by omega)
    rw [proposeLoop, ha]
    show proposeLoop outcome (n + 1) (p + 1) = proposeLoop outcome 1 (p + (n + 1))
    rw [ih (p + 1) (fun r hr1 hr2 => hconf r (by omega) (by omega))]
    have harith : p + 1 + n = p + (n + 1) := by omega
    rw [harith]

/-- C3: `propose` never surfaces `AddressAlreadyExists`: for every write
outcome sequence the retry loop's result is never that error; with
conflicts on `[p, q)`, a success at `q` makes it return `log_position = q`
and set the cached next position to `q + 1`; `BackendUnavailable` at `q` and
`NotImplemented` at `q` are returned as errors with the cache untouched. -/
theorem C3_propose_retry_on_conflict (outcome : WriteOutcome) (cached p q : Nat)
    (hpq : p ≤ q)
    (hconf : ∀ r, p ≤ r → r < q → ∃ a, outcome r = some (.addressAlreadyExists a)) :
    (∀ (fuel start a : Nat),
        proposeLoop outcome fuel start ≠ some (.error (.addressAlreadyExists a)))
    ∧ (outcome q = none →
        proposeLoop outcome (q - p + 1) p = some (.ok q)
        ∧ proposeNextCache cached (proposeLoop outcome (q - p + 1) p) = q + 1)
    ∧ (∀ msg, outcome q = some (.backendUnavailable msg) →
        proposeLoop outcome (q - p + 1) p = some (.error (.backendUnavailable msg))
        ∧ proposeNextCache cached (proposeLoop outcome (q - p + 1) p) = cached)
    ∧ (outcome q = some .notImplemented →
        proposeLoop outcome (q - p + 1) p = some (.error .notImplemented)
        ∧ proposeNextCache cached (proposeLoop outcome (q - p + 1) p) = cached) := by
  have hskip : proposeLoop outcome (q - p + 1) p = proposeLoop outcome 1 q := by
    have h2 := proposeLoop_skips_conflicts outcome (q - p) p
      (fun r hr1 hr2 => hconf r hr1 (by omega))
    have harith : p + (q - p) = q := by omega
    rw [h2, harith]
  refine ⟨?_, ?_, ?_, ?_⟩
  · intro fuel
    induction fuel with
    | zero => intro start a h; exact Option.noConfusion h
    | succ fuel ih =>
      intro start a h
      rw [proposeLoop] at h
      rcases ho : outcome start with _ | e
      · rw [ho] at h
        simp at h
      · rw [ho] at h
        cases e with
        | addressAlreadyExists a' => exact ih (start + 1) a h
        | backendUnavailable msg => simp at h
        | notImplemented => simp at h
  · intro hq
    rw [hskip, proposeLoop, hq]
    exact ⟨rfl, rfl⟩
  · intro msg hq
    rw [hskip, proposeLoop, hq]
    exact ⟨rfl, rfl⟩
  · intro hq
    rw [hskip, proposeLoop, hq]
    exact ⟨rfl, rfl⟩

/-- Witness for C3 at a concrete input: with conflicts at addresses 0 and 1
and success at 2, the loop returns position 2 and the cache becomes 3
(never an `AddressAlreadyExists` result). -/
theorem C3_witness :
    proposeLoop c3Outcome 3 0 = some (.ok 2)
    ∧ proposeNextCache 5 (proposeLoop c3Outcome 3 0) = 3
    ∧ proposeLoop c3Outcome 3 0 ≠ some (.error (.addressAlreadyExists 0)) := by
  have h := C3_propose_retry_on_conflict c3Outcome 5 0 2 (by omega)
    (fun r _ hr => ⟨r, by simp [c3Outcome, hr]⟩)
  have h2 := h.2.1 rfl
  exact ⟨h2.1, h2.2, h.1 3 0 0⟩

/-- Helper: nothing matches the empty filter. -/
theorem anyMatching_empty_filter (l : List BusEntry) :
    anyMatching (some []) l = false := by
  induction l with
  | nil => rfl
  | cons e rest ih =>
    rw [anyMatching, List.any_cons]
    rw [anyMatching] at ih
    rw [ih]
    cases he : e.payload with
    | some payload =>
      obtain ⟨pp⟩ := payload
      cases pp with
      | none => simp [payload_matches_filter, get_payload_type]
      | some pv => cases pv <;> simp [payload_matches_filter, get_payload_type]
    | none => simp

/-- Helper: nothing in any range matches the empty filter. -/
theorem anyMatchingInRange_empty_filter (m : List (Nat × Payload)) (e : Nat) :
    ∀ p, anyMatchingInRange m (some []) e p = false := by
  suffices h : ∀ n p, e - p = n → anyMatchingInRange m (some []) e p = false by
    intro p
    exact h (e - p) p rfl
  intro n
  induction n with
  | zero =>
    intro p hn
    rw [anyMatchingInRange]
    have : ¬p < e := by omega
    simp [this]
  | succ n ih =>
    intro p hn
    rw [anyMatchingInRange]
    have hp : p < e := by omega
    rw [if_pos hp, ih (p + 1) (by omega)]
    cases hl : m.lookup p with
    | some payload =>
      obtain ⟨pp⟩ := payload
      cases pp with
      | none => simp [payload_matches_filter, get_payload_type]
      | some pv => cases pv <;> simp [payload_matches_filter, get_payload_type]
    | none => simp

/-- Helper for the amended C1: with `max_entries = 0` the in-memory
collection loop returns no entries, and is complete iff no entry of the
slice matches the filter. -/
theorem fetchEntriesLoop_max_zero (payload_types : Option (List Int)) (start_idx : Nat) :
    ∀ (l : List BusEntry) (i : Nat),
    fetchEntriesLoop payload_types 0 start_idx l i 0 = ([], !anyMatching payload_types l) := by
  intro l
  induction l with
  | nil => intro i; rfl
  | cons e rest ih =>
    intro i
    rw [fetchEntriesLoop, anyMatching, List.any_cons]
    rw [anyMatching] at ih
    cases he : e.payload with
    | some payload =>
      by_cases hm : payload_matches_filter payload payload_types
      · simp [hm]
      · simp [hm, ih (i + 1)]
    | none => simp [ih (i + 1)]

/-- Helper for the amended C1: with `max_entries = 0` the write-once
collection loop returns no entries, and is complete iff no occupied cell in
`[pos, end_position)` matches the filter. -/
theorem woPollLoop_max_zero (m : List (Nat × Payload)) (payload_types : Option (List Int))
    (e : Nat) :
    ∀ p, woPollLoop m payload_types 0 e p 0
      = ([], !anyMatchingInRange m payload_types e p) := by
  suffices h : ∀ n p, e - p = n →
      woPollLoop m payload_types 0 e p 0 = ([], !anyMatchingInRange m payload_types e p) by
    intro p
    exact h (e - p) p rfl
  intro n
  induction n with
  | zero =>
    intro p hn
    rw [woPollLoop, anyMatchingInRange]
    have : ¬p < e := by omega
    simp [this]
  | succ n ih =>
    intro p hn
    rw [woPollLoop, anyMatchingInRange]
    have hp : p < e := by omega
    rw [if_pos hp, if_pos hp, ih (p + 1) (by omega)]
    cases hl : m.lookup p with
    | some payload =>
      by_cases hm : payload_matches_filter payload payload_types
      · simp [hm]
      · simp [hm]
    | none => simp

/-- C1 counterexample: on a bus holding one intention entry, a poll with
`max_entries = 0` from position 0 with no filter returns `entries = []` with
`complete = false` — not `complete = true` — for both the in-memory log and
the write-once bus. -/
theorem C1_counterexample_poll_max_zero :
    InMemoryAgentBusState.poll c1InMemoryState c1Request = .ok ⟨[], false⟩
    ∧ (WriteOnceAgentBusState.poll c1WriteOnceState c1Request).map Prod.fst = .ok ⟨[], false⟩
    ∧ (⟨[], false⟩ : PollResponse).complete ≠ true := by
  refine ⟨rfl, ?_, by simp⟩
  rw [WriteOnceAgentBusState.poll]
  split
  · rename_i h
    simp [c1Request] at h
  · dsimp only
    have hscan : scanEnd (c1WriteOnceState.space.spaces c1Request.agent_bus_id)
        (c1WriteOnceState.next_positions c1Request.agent_bus_id) = 1 := by
      show scanEnd [(0, sampleIntentionPayload)] 0 = 1
      rw [scanEnd]
      simp only [List.lookup, beq_self_eq_true, Option.isSome_some, dite_true]
      rw [scanEnd]
      simp [List.lookup]
    rw [hscan]
    have hloop : woPollLoop (c1WriteOnceState.space.spaces c1Request.agent_bus_id)
        (Option.map (fun x => x.payload_types) c1Request.filter)
        (min (usizeOfInt c1Request.max_entries) MAX_POLL_ENTRIES) 1
        (max c1Request.start_log_position 0).toNat 0 = ([], false) := by
      show woPollLoop [(0, sampleIntentionPayload)] none 0 1 0 0 = ([], false)
      rw [woPollLoop]
      norm_num [List.lookup, payload_matches_filter]
    rw [if_neg (by omega), hloop]
    rfl

/-- Helper: the `max_entries` computation of both polls at a requested 0. -/
theorem max_entries_at_zero : min (usizeOfInt 0) MAX_POLL_ENTRIES = 0 := by
  norm_num [usizeOfInt, MAX_POLL_ENTRIES]

/-- Helper: `fetch_entries` with `max_entries = 0` returns no entries and is
complete iff no entry from `start` on matches the filter. -/
theorem fetch_entries_max_zero (st : InMemoryAgentBusState) (bus_id : String)
    (start : Int) (payload_types : Option (List Int)) :
    st.fetch_entries bus_id start 0 payload_types
      = ([], !anyMatching payload_types
          (((st.buses bus_id).getD []).drop (max start 0).toNat)) := by
  rw [InMemoryAgentBusState.fetch_entries]
  cases hb : st.buses bus_id with
  | none => simp [anyMatching]
  | some bus =>
    dsimp only
    have hslice : (if (max start 0).toNat < bus.length
          then bus.drop (max start 0).toNat else [])
        = bus.drop (max start 0).toNat := by
      split
      · rfl
      · exact (List.drop_eq_nil_of_le (by omega)).symm
    rcases payload_types with _ | ⟨_ | ⟨t, ts⟩⟩
    · rw [hslice, fetchEntriesLoop_max_zero]
      simp
    · rw [anyMatching_empty_filter]
      simp
    · rw [hslice, fetchEntriesLoop_max_zero]
      simp

/-- C1 (amended): `poll(max_entries = 0)` always returns `entries = []`, but
`complete` is `true` only when no filter-matching entry remains at or after
`start` (up to the discovered tail for the write-once bus): when such an
entry exists, both implementations return `complete = false`. -/
theorem C1_poll_max_zero_amended (st : InMemoryAgentBusState)
    (wst : WriteOnceAgentBusState) (bus_id : String) (start : Int)
    (filter : Option PayloadTypeFilter) :
    InMemoryAgentBusState.poll st ⟨bus_id, start, 0, filter⟩
      = .ok ⟨[], !anyMatching (filter.map (·.payload_types))
          (((st.buses bus_id).getD []).drop (max start 0).toNat)⟩
    ∧ (WriteOnceAgentBusState.poll wst ⟨bus_id, start, 0, filter⟩).map Prod.fst
      = .ok ⟨[], !anyMatchingInRange (wst.space.spaces bus_id)
          (filter.map (·.payload_types))
          (scanEnd (wst.space.spaces bus_id) (wst.next_positions bus_id))
          (max start 0).toNat⟩ := by
  constructor
  · rw [InMemoryAgentBusState.poll]
    dsimp only
    rw [max_entries_at_zero, fetch_entries_max_zero]
  · rw [WriteOnceAgentBusState.poll]
    split
    · rename_i h
      rw [h, anyMatchingInRange_empty_filter]
      rfl
    · dsimp only
      split
      · rename_i h0
        rw [h0, anyMatchingInRange]
        simp
        rfl
      · rw [max_entries_at_zero, woPollLoop_max_zero]
        rfl


/-- Helper: `strFind` returns `none` exactly when the pattern occurs
nowhere. -/
theorem strFind_eq_none_iff (pat : List Char) :
    ∀ l, strFind l pat = none ↔ ∀ i, ¬OccursAt l pat i := by
  intro l
  induction l with
  | nil =>
    rw [strFind]
    by_cases hp : pat.isEmpty = true
    · rw [if_pos hp]
      simp only [OccursAt, List.drop_nil, List.prefix_nil]
      rw [List.isEmpty_iff] at hp
      simp [hp]
    · rw [if_neg hp]
      simp only [OccursAt, List.drop_nil, List.prefix_nil]
      rw [List.isEmpty_iff] at hp
      simp [hp]
  | cons c t ih =>
    rw [strFind]
    by_cases hpre : pat.isPrefixOf (c :: t) = true
    · rw [if_pos hpre]
      rw [List.isPrefixOf_iff_prefix] at hpre
      simp only [Option.some_ne_none, false_iff, not_forall, not_not]
      exact ⟨0, hpre⟩
    · rw [if_neg hpre]
      rw [Option.map_eq_none']
      rw [ih]
      constructor
      · intro h i
        cases i with
        | zero =>
          intro hocc
          rw [OccursAt, List.drop_zero, ← List.isPrefixOf_iff_prefix] at hocc
          exact hpre hocc
        | succ i =>
          intro hocc
          rw [OccursAt, List.drop_succ_cons] at hocc
          exact h i hocc
      · intro h i hocc
        exact h (i + 1) (by rw [OccursAt, List.drop_succ_cons]; exact hocc)


/-- Helper: `strFind` computes the first occurrence of the pattern
(correctness of the Rust `str::find` model). -/
theorem strFind_eq_some_iff (pat : List Char) :
    ∀ l i, strFind l pat = some i ↔ FirstOccursAt l pat i := by
  intro l
  induction l with
  | nil =>
    intro i
    rw [strFind]
    by_cases hp : pat.isEmpty = true
    · rw [if_pos hp]
      rw [List.isEmpty_iff] at hp
      subst hp
      constructor
      · intro h
        obtain rfl : i = 0 := by simpa using h.symm
        exact ⟨by simp [OccursAt], fun j hj => by omega⟩
      · rintro ⟨hocc, hmin⟩
        rcases Nat.eq_zero_or_pos i with rfl | hpos
        · rfl
        · exact absurd (show OccursAt [] [] 0 by simp [OccursAt]) (hmin 0 hpos)
    · rw [if_neg hp]
      rw [List.isEmpty_iff] at hp
      constructor
      · intro h; exact absurd h (by simp)
      · rintro ⟨hocc, _⟩
        rw [OccursAt, List.drop_nil, List.prefix_nil] at hocc
        exact absurd hocc hp
  | cons c t ih =>
    intro i
    rw [strFind]
    by_cases hpre : pat.isPrefixOf (c :: t) = true
    · rw [if_pos hpre]
      rw [List.isPrefixOf_iff_prefix] at hpre
      constructor
      · intro h
        obtain rfl : i = 0 := by simpa using h.symm
        exact ⟨by rw [OccursAt, List.drop_zero]; exact hpre, fun j hj => by omega⟩
      · rintro ⟨hocc, hmin⟩
        rcases Nat.eq_zero_or_pos i with rfl | hpos
        · rfl
        · exact absurd (show OccursAt (c :: t) pat 0 by
            rw [OccursAt, List.drop_zero]; exact hpre) (hmin 0 hpos)
    · rw [if_neg hpre]
      constructor
      · intro h
        rw [Option.map_eq_some'] at h
        obtain ⟨k, hk, rfl⟩ := h
        obtain ⟨hocc, hmin⟩ := (ih k).mp hk
        refine ⟨by rw [OccursAt, List.drop_succ_cons]; exact hocc, ?_⟩
        intro j hj
        cases j with
        | zero =>
          intro hocc0
          rw [OccursAt, List.drop_zero, ← List.isPrefixOf_iff_prefix] at hocc0
          exact hpre hocc0
        | succ j =>
          intro hoccj
          rw [OccursAt, List.drop_succ_cons] at hoccj
          exact hmin j (by omega) hoccj
      · rintro ⟨hocc, hmin⟩
        cases i with
        | zero =>
          rw [OccursAt, List.drop_zero, ← List.isPrefixOf_iff_prefix] at hocc
          exact absurd hocc hpre
        | succ i =>
          have hfirst : FirstOccursAt t pat i := by
            refine ⟨by rw [OccursAt] at hocc ⊢; rwa [List.drop_succ_cons] at hocc, ?_⟩
            intro j hj hoccj
            exact hmin (j + 1) (by omega)
              (by rw [OccursAt, List.drop_succ_cons]; exact hoccj)
          rw [Option.map_eq_some']
          exact ⟨i, (ih i).mpr hfirst, rfl⟩

/-- C7 counterexample: in the response
`"<safe>false</safe><safe>true</safe>"` a well-formed `<safe>` tag with
trimmed content "true" is present, yet `parse_safety_response` returns
`is_safe = false` — it only consults the first `<safe>` tag. -/
theorem C7_counterexample_later_true_tag :
    hasWellFormedTrueSafeTag c7Response = true
    ∧ (parse_safety_response c7Response).1 = false := by
  constructor
  · decide
  · decide


/-- C7 (amended): `parse_safety_response` returns `is_safe = true` iff,
taking the FIRST occurrence of `"<safe>"` in the response, a `"</safe>"`
occurs at or after it and the text between them trims to "true" up to ASCII
case; a well-formed true tag after an earlier `<safe>` tag does not count. -/
theorem C7_parse_safe_first_tag_amended (response : List Char) :
    (parse_safety_response response).1 = true ↔
    ∃ i e, FirstOccursAt response "<safe>".toList i
      ∧ FirstOccursAt (response.drop i) "</safe>".toList e
      ∧ eqIgnoreAsciiCase (trimChars ((response.drop (i + 6)).take (e - 6)))
          "true".toList = true := by
  rw [parse_safety_response]
  dsimp only
  cases hs : strFind response "<safe>".toList with
  | none =>
    dsimp only
    simp only [Bool.false_eq_true, false_iff]
    rintro ⟨i, e, hfirst, -, -⟩
    rw [(strFind_eq_some_iff _ _ _).mpr hfirst] at hs
    exact Option.noConfusion hs
  | some start =>
    dsimp only
    cases he : strFind (response.drop start) "</safe>".toList with
    | none =>
      dsimp only
      simp only [Bool.false_eq_true, false_iff]
      rintro ⟨i, e, hfirst, hfirst2, -⟩
      have hi : strFind response "<safe>".toList = some i :=
        (strFind_eq_some_iff _ _ _).mpr hfirst
      rw [hs, Option.some.injEq] at hi
      subst hi
      have hei : strFind (response.drop start) "</safe>".toList = some e :=
        (strFind_eq_some_iff _ _ _).mpr hfirst2
      rw [he] at hei
      exact Option.noConfusion hei
    | some endIdx =>
      dsimp only
      constructor
      · intro h
        exact ⟨start, endIdx, (strFind_eq_some_iff _ _ _).mp hs,
          (strFind_eq_some_iff _ _ _).mp he, h⟩
      · rintro ⟨i, e, hfirst, hfirst2, htrim⟩
        have hi : strFind response "<safe>".toList = some i :=
          (strFind_eq_some_iff _ _ _).mpr hfirst
        rw [hs, Option.some.injEq] at hi
        subst hi
        have hei : strFind (response.drop start) "</safe>".toList = some e :=
          (strFind_eq_some_iff _ _ _).mpr hfirst2
        rw [he, Option.some.injEq] at hei
        subst hei
        exact htrim

/-- Helper for C2: positions whose stored intention state is untouched keep
their absent/decided status. -/
theorem preserve_of_states_eq {R : Type} (a b : DeciderState R) (k : Int)
    (h : a.intention_states k = b.intention_states k) :
    (b.intention_states k = none → a.intention_states k = none)
    ∧ (decidedAt b k = true → decidedAt a k = true) := by
  rw [decidedAt, decidedAt, h]
  exact ⟨fun x => x, fun x => x⟩

/-- Helper for C2, the per-entry step facts: (i) positions the entry does
not register an intention at keep their absent/decided status; (ii) a
proposal emitted by the step is for a position that was undecided before and
is decided after — unless the entry is an intention at that very
position. -/
theorem decider_step_props {R : Type} (ops : TrackerOps R) (factory : Int → R)
    (st st' : DeciderState R) (e : BusEntry) (pr : Option Proposal)
    (hstep : Decider.process_entry ops factory st e = .ok (st', pr)) :
    (∀ k, ¬(entryIsIntention e = true ∧ entryPos e = k) →
        (st.intention_states k = none → st'.intention_states k = none)
        ∧ (decidedAt st k = true → decidedAt st' k = true))
    ∧ (∀ p, pr = some p →
        decidedAt st' p.intention_id = true
        ∧ (decidedAt st p.intention_id = false
            ∨ (entryIsIntention e = true ∧ entryPos e = p.intention_id))) := by
  obtain ⟨hdr, pay⟩ := e
  cases pay with
  | none =>
    simp only [Decider.process_entry, Except.ok.injEq, Prod.mk.injEq] at hstep
    obtain ⟨hst, hpr⟩ := hstep
    subst hst
    subst hpr
    exact ⟨fun k _ => preserve_of_states_eq _ _ k rfl, fun p hp => by simp at hp⟩
  | some payload =>
    obtain ⟨pp⟩ := payload
    cases pp with
    | none =>
      simp only [Decider.process_entry] at hstep
      exact Except.noConfusion hstep
    | some pv =>
      cases pv with
      | intention i =>
        simp only [Decider.process_entry, Decider.process_intention] at hstep
        cases hreg : (ops.register (factory st.current_decider_policy)).2 with
        | some cr =>
          rw [hreg] at hstep
          simp only [Except.ok.injEq, Prod.mk.injEq] at hstep
          obtain ⟨hst, hpr⟩ := hstep
          subst hst
          subst hpr
          constructor
          · intro k hk
            have hkne : ¬k = (Option.map Header.log_position hdr).getD 0 :=
              fun hc => hk ⟨rfl, hc.symm⟩
            refine preserve_of_states_eq _ _ k ?_
            dsimp only
            exact if_neg hkne
          · intro p hp
            simp only [Option.some.injEq] at hp
            subst hp
            refine ⟨?_, Or.inr ⟨rfl, rfl⟩⟩
            simp [decidedAt, hreg]
        | none =>
          rw [hreg] at hstep
          simp only [Except.ok.injEq, Prod.mk.injEq] at hstep
          obtain ⟨hst, hpr⟩ := hstep
          subst hst
          subst hpr
          constructor
          · intro k hk
            have hkne : ¬k = (Option.map Header.log_position hdr).getD 0 :=
              fun hc => hk ⟨rfl, hc.symm⟩
            refine preserve_of_states_eq _ _ k ?_
            dsimp only
            exact if_neg hkne
          · intro p hp
            simp at hp
      | vote v =>
        simp only [Decider.process_entry, Decider.process_vote] at hstep
        cases hstate : st.intention_states v.intention_id with
        | none =>
          rw [hstate] at hstep
          simp only [Except.ok.injEq, Prod.mk.injEq] at hstep
          obtain ⟨hst, hpr⟩ := hstep
          subst hst
          subst hpr
          exact ⟨fun k _ => preserve_of_states_eq _ _ k rfl, fun p hp => by simp at hp⟩
        | some state =>
          rw [hstate] at hstep
          dsimp only at hstep
          by_cases hdm : state.decision_made = true
          · rw [if_pos hdm] at hstep
            simp only [Except.ok.injEq, Prod.mk.injEq] at hstep
            obtain ⟨hst, hpr⟩ := hstep
            subst hst
            subst hpr
            exact ⟨fun k _ => preserve_of_states_eq _ _ k rfl, fun p hp => by simp at hp⟩
          · rw [if_neg hdm] at hstep
            rw [Bool.not_eq_true] at hdm
            cases happ : (ops.applyVote state.vote_tracker v).2 with
            | some cr =>
              rw [happ] at hstep
              simp only [Except.ok.injEq, Prod.mk.injEq] at hstep
              obtain ⟨hst, hpr⟩ := hstep
              subst hst
              subst hpr
              constructor
              · intro k _
                by_cases hkv : k = v.intention_id
                · subst hkv
                  refine ⟨fun h => absurd (hstate ▸ h) (by simp), fun h => ?_⟩
                  rw [decidedAt, hstate] at h
                  simp [hdm] at h
                · refine preserve_of_states_eq _ _ k ?_
                  dsimp only
                  exact if_neg hkv
              · intro p hp
                simp only [Option.some.injEq] at hp
                subst hp
                constructor
                · simp [decidedAt]
                · refine Or.inl ?_
                  rw [decidedAt, hstate]
                  simp [hdm]
            | none =>
              rw [happ] at hstep
              simp only [Except.ok.injEq, Prod.mk.injEq] at hstep
              obtain ⟨hst, hpr⟩ := hstep
              subst hst
              subst hpr
              constructor
              · intro k _
                by_cases hkv : k = v.intention_id
                · subst hkv
                  refine ⟨fun h => absurd (hstate ▸ h) (by simp), fun h => ?_⟩
                  rw [decidedAt, hstate] at h
                  simp [hdm] at h
                · refine preserve_of_states_eq _ _ k ?_
                  dsimp only
                  exact if_neg hkv
              · intro p hp
                simp at hp
      | deciderPolicy dp =>
        simp only [Decider.process_entry, Except.ok.injEq, Prod.mk.injEq] at hstep
        obtain ⟨hst, hpr⟩ := hstep
        subst hst
        subst hpr
        exact ⟨fun k _ => preserve_of_states_eq _ _ k rfl, fun p hp => by simp at hp⟩
      | voterPolicy vp =>
        simp only [Decider.process_entry, Except.ok.injEq, Prod.mk.injEq] at hstep
        obtain ⟨hst, hpr⟩ := hstep
        subst hst
        subst hpr
        exact ⟨fun k _ => preserve_of_states_eq _ _ k rfl, fun p hp => by simp at hp⟩
      | commit c =>
        simp only [Decider.process_entry, Except.ok.injEq, Prod.mk.injEq] at hstep
        obtain ⟨hst, hpr⟩ := hstep
        subst hst
        subst hpr
        exact ⟨fun k _ => preserve_of_states_eq _ _ k rfl, fun p hp => by simp at hp⟩
      | abort a =>
        simp only [Decider.process_entry, Except.ok.injEq, Prod.mk.injEq] at hstep
        obtain ⟨hst, hpr⟩ := hstep
        subst hst
        subst hpr
        exact ⟨fun k _ => preserve_of_states_eq _ _ k rfl, fun p hp => by simp at hp⟩
      | control c =>
        simp only [Decider.process_entry] at hstep
        exact Except.noConfusion hstep
      | inferenceInput s =>
        simp only [Decider.process_entry, Except.ok.injEq, Prod.mk.injEq] at hstep
        obtain ⟨hst, hpr⟩ := hstep
        subst hst
        subst hpr
        exact ⟨fun k _ => preserve_of_states_eq _ _ k rfl, fun p hp => by simp at hp⟩
      | inferenceOutput s =>
        simp only [Decider.process_entry, Except.ok.injEq, Prod.mk.injEq] at hstep
        obtain ⟨hst, hpr⟩ := hstep
        subst hst
        subst hpr
        exact ⟨fun k _ => preserve_of_states_eq _ _ k rfl, fun p hp => by simp at hp⟩
      | actionOutput a =>
        simp only [Decider.process_entry, Except.ok.injEq, Prod.mk.injEq] at hstep
        obtain ⟨hst, hpr⟩ := hstep
        subst hst
        subst hpr
        exact ⟨fun k _ => preserve_of_states_eq _ _ k rfl, fun p hp => by simp at hp⟩
      | agentInput s =>
        simp only [Decider.process_entry, Except.ok.injEq, Prod.mk.injEq] at hstep
        obtain ⟨hst, hpr⟩ := hstep
        subst hst
        subst hpr
        exact ⟨fun k _ => preserve_of_states_eq _ _ k rfl, fun p hp => by simp at hp⟩
      | agentOutput s =>
        simp only [Decider.process_entry, Except.ok.injEq, Prod.mk.injEq] at hstep
        obtain ⟨hst, hpr⟩ := hstep
        subst hst
        subst hpr
        exact ⟨fun k _ => preserve_of_states_eq _ _ k rfl, fun p hp => by simp at hp⟩

/-- Helper for C2, the whole-run invariant: when the intention positions in
the entry sequence are pairwise distinct and none of them has stored
intention state yet, the proposals of the run carry pairwise distinct
intention ids, each of which was undecided at the start. -/
theorem decider_entries_props {R : Type} (ops : TrackerOps R) (factory : Int → R) :
    ∀ (entries : List BusEntry) (st : DeciderState R),
    ((entries.filter entryIsIntention).map entryPos).Nodup →
    (∀ k, k ∈ (entries.filter entryIsIntention).map entryPos →
        st.intention_states k = none) →
    ((Decider.process_entries ops factory st entries).1.map Proposal.intention_id).Nodup
    ∧ (∀ i, i ∈ (Decider.process_entries ops factory st entries).1.map Proposal.intention_id →
        decidedAt st i = false) := by
  intro entries
  induction entries with
  | nil =>
    intro st _ _
    constructor
    · simp [Decider.process_entries]
    · intro i hi
      simp [Decider.process_entries] at hi
  | cons e rest ih =>
    intro st hnodup habsent
    rw [Decider.process_entries]
    cases hstep : Decider.process_entry ops factory st e with
    | error err =>
      dsimp only
      constructor
      · simp
      · intro i hi
        simp at hi
    | ok stprop =>
      obtain ⟨st', pr⟩ := stprop
      dsimp only
      obtain ⟨hpres, hemit⟩ := decider_step_props ops factory st st' e pr hstep
      have hsub : ∀ k, k ∈ (rest.filter entryIsIntention).map entryPos →
          k ∈ ((e :: rest).filter entryIsIntention).map entryPos := by
        intro k hk
        by_cases hie : entryIsIntention e = true
        · rw [List.filter_cons_of_pos hie, List.map_cons]
          exact List.mem_cons_of_mem _ hk
        · rw [List.filter_cons_of_neg (by simpa using hie)]
          exact hk
      have hnodup' : ((rest.filter entryIsIntention).map entryPos).Nodup := by
        by_cases hie : entryIsIntention e = true
        · rw [List.filter_cons_of_pos hie, List.map_cons, List.nodup_cons] at hnodup
          exact hnodup.2
        · rw [List.filter_cons_of_neg (by simpa using hie)] at hnodup
          exact hnodup
      have hke : ∀ k, (entryIsIntention e = true ∧ entryPos e = k) →
          k ∈ ((e :: rest).filter entryIsIntention).map entryPos := by
        rintro k ⟨hie, hpe⟩
        rw [List.filter_cons_of_pos hie, List.map_cons, hpe]
        exact List.mem_cons_self _ _
      have habsent' : ∀ k, k ∈ (rest.filter entryIsIntention).map entryPos →
          st'.intention_states k = none := by
        intro k hk
        have hne : ¬(entryIsIntention e = true ∧ entryPos e = k) := by
          rintro ⟨hie, hpe⟩
          rw [List.filter_cons_of_pos hie, List.map_cons, List.nodup_cons, hpe] at hnodup
          exact hnodup.1 hk
        exact (hpres k hne).1 (habsent k (hsub k hk))
      obtain ⟨ihnodup, ihfalse⟩ := ih st' hnodup' habsent'
      cases pr with
      | none =>
        dsimp only [Option.toList]
        constructor
        · simpa using ihnodup
        · intro i hi
          rw [List.nil_append] at hi
          have hfalse' := ihfalse i hi
          by_cases hd : decidedAt st i = true
          · by_cases hint : entryIsIntention e = true ∧ entryPos e = i
            · have habs := habsent i (hke i hint)
              rw [decidedAt, habs] at hd
              simp at hd
            · have h2 := (hpres i hint).2 hd
              rw [hfalse'] at h2
              exact Bool.noConfusion h2
          · simpa using hd
      | some p =>
        dsimp only [Option.toList]
        rw [List.singleton_append, List.map_cons]
        obtain ⟨hdec', hdisj⟩ := hemit p rfl
        constructor
        · rw [List.nodup_cons]
          refine ⟨fun hmem => ?_, ihnodup⟩
          have hthis := ihfalse p.intention_id hmem
          rw [hthis] at hdec'
          exact Bool.noConfusion hdec'
        · intro i hi
          rcases List.mem_cons.mp hi with rfl | himem
          · rcases hdisj with hfalse | hint
            · exact hfalse
            · have habs := habsent _ (hke _ hint)
              rw [decidedAt, habs]
              rfl
          · have hfalse' := ihfalse i himem
            by_cases hd : decidedAt st i = true
            · by_cases hint : entryIsIntention e = true ∧ entryPos e = i
              · have habs := habsent i (hke i hint)
                rw [decidedAt, habs] at hd
                simp at hd
              · have h2 := (hpres i hint).2 hd
                rw [hfalse'] at h2
                exact Bool.noConfusion h2
            · simpa using hd

/-- C2: for every entry sequence whose intention entries sit at pairwise
distinct log positions (as in any bus log), a single Decider run from a
fresh state — with any tracker semantics and any policy — proposes at most
one verdict (Commit or Abort, not both) per intention position: the
intention ids of the emitted proposals are pairwise distinct; in particular
once a decision has been made for a position, no later Vote entry for it
produces another proposal. -/
theorem C2_decider_at_most_one_verdict (R : Type) (ops : TrackerOps R)
    (factory : Int → R) (initial_policy : Int) (entries : List BusEntry)
    (h : ((entries.filter entryIsIntention).map entryPos).Nodup) :
    ((Decider.process_entries ops factory (DeciderState.new R initial_policy)
        entries).1.map Proposal.intention_id).Nodup :=
  (decider_entries_props ops factory entries (DeciderState.new R initial_policy) h
    (fun _ _ => rfl)).1

/-- Witness for C2 at a concrete input: the boxed concrete trackers with the
source factory, a FirstBooleanWins policy, an intention at position 0 and a
boolean vote for it at position 1 — the run's proposal ids are distinct. -/
theorem C2_witness :
    ((c2Entries.filter entryIsIntention).map entryPos).Nodup
    ∧ ((Decider.process_entries VoteTrackerBox.ops create_vote_tracker_for_decider_policy
        (DeciderState.new VoteTrackerBox DeciderPolicy.firstBooleanWins) c2Entries).1.map
          Proposal.intention_id).Nodup :=
  ⟨by decide,
   C2_decider_at_most_one_verdict VoteTrackerBox VoteTrackerBox.ops
     create_vote_tracker_for_decider_policy DeciderPolicy.firstBooleanWins c2Entries
     (by decide)⟩

/-- Witness for C10 at a concrete input: the unknown policy tag 42 falls
back to a fresh FirstVoterWins tracker, and its first boolean vote `false`
decides `false`. -/
theorem C10_witness :
    create_vote_tracker_for_decider_policy 42 = .firstVoterWins FirstVoterWinsTracker.new
    ∧ (((create_vote_tracker_for_decider_policy 42).apply_vote
          sampleBooleanVoteFalse).2).map Prod.fst = some false := by
  have h := C10_factory_fallback 42 (by decide) (by decide) (by decide)
  exact ⟨h.1, h.2.2 sampleBooleanVoteFalse false rfl⟩
